import Mathlib

/-
Shallow embedding of trimics.py, the iCal-trimming script.

The program defines a class `ical` wrapping an icalendar `Calendar` object
(`self._calendar`) plus a Python list of events (`self._events`), and the
operations reset, createNew, readFromFile, getEventCount, getEvent, addEvent,
findEventsByDateAfter, findEventBySummary and the static
stripApplicationSpecificSubcomponents.

Modelling conventions:
- A calendar date is an `Int` (proleptic ordinal day number); a Python
  `datetime.datetime` is a date part plus a time-of-day and is embedded as
  `DTime.dateTime`.  Truncation `d.date()` keeps the date part.  Comparison
  of two dates is integer comparison.
- An icalendar component is a caseless mapping; the program only ever uses
  upper-case keys ("DTEND", "RRULE", "SUMMARY", "UNTIL"), so field names are
  stored upper-case and looked up exactly.
- Of an RRULE value (a mapping of sub-field names to value lists) the program
  only consults the UNTIL entry (a presence test and the first element), so
  the embedding keeps exactly that entry; the other sub-fields (FREQ, ...)
  can never influence any modelled operation.
- Fallible Python code (uncaught KeyError / IndexError / TypeError /
  AttributeError) is embedded with `Except PyError`.
- `Calendar.is_empty()` of the icalendar library is true iff the component
  has no property values and no subcomponents; `Calendar.clear()` is plain
  `dict.clear`, which removes the property entries but does not touch the
  `subcomponents` list attribute.
- `Calendar.walk("VEVENT")` is modelled flatly over the subcomponent list
  (the input calendars hold their VEVENTs as direct children).
- The cutoff `datetime.datetime.now().date() - relativedelta(months=months)`
  involves the wall clock, so the filter is embedded as a function of the
  already-computed cutoff date.
-/

namespace Trimics

/-- A Python `datetime.date` or `datetime.datetime` value (`d` is the date as
a proleptic ordinal, `secs` a time-of-day; time zones never influence the
modelled code because every comparison first truncates to the date). -/
inductive DTime where
  | date (d : Int)
  | dateTime (d : Int) (secs : Nat)
deriving DecidableEq

/-- Python `d.date()` when `d` is a datetime; the identity on a date. -/
def DTime.toDate : DTime → Int
  | .date d => d
  | .dateTime d _ => d

/-- The RRULE value (icalendar vRecur): of its sub-field mapping the program
only reads the UNTIL entry, kept here as an optional list of values. -/
structure RRuleVal where
  untilVal : Option (List DTime)
deriving DecidableEq

/-- A field value of an event component: a date or datetime (icalendar
vDDDTypes, carrying the `.dt` attribute), free text (vText, a `str`
subclass), or a recurrence rule mapping (vRecur). -/
inductive FieldValue where
  | time (t : DTime)
  | text (s : String)
  | rrule (r : RRuleVal)
deriving DecidableEq

/-- One VEVENT component: its ordered field list (Python dicts preserve
insertion order; field names are unique within one event). -/
structure Event where
  fields : List (String × FieldValue)
deriving DecidableEq

/-- Exceptions the embedded code can raise (uncaught in the program). -/
inductive PyError where
  | keyError
  | indexError
  | typeError
  | attributeError
deriving DecidableEq

/-- Dict lookup on the field list of a component (None when absent). -/
def findField (name : String) : List (String × FieldValue) → Option FieldValue
  | [] => none
  | (k, v) :: rest => if k = name then some v else findField name rest

/-- A subcomponent of the Calendar: a VEVENT, or some other component kind
(VTIMEZONE, ...), which `walk("VEVENT")` skips. -/
inductive Component where
  | vevent (e : Event)
  | other (name : String)
deriving DecidableEq

/-- The icalendar `Calendar` object: its property dict (prodid, version, ...)
and its subcomponent list. -/
structure Calendar where
  props : List (String × String)
  subcomponents : List Component
deriving DecidableEq

/-- `Calendar.is_empty()`: no property values and no subcomponents. -/
def Calendar.isEmpty (c : Calendar) : Bool :=
  c.props.isEmpty && c.subcomponents.isEmpty

/-- `Calendar.walk("VEVENT")`: the VEVENT components in document order. -/
def walkVEVENT (c : Calendar) : List Event :=
  c.subcomponents.filterMap fun comp =>
    match comp with
    | .vevent e => some e
    | .other _ => none

/-- The state of one `ical` object: `self._calendar` and `self._events`
(the file name and verbosity flag only affect I/O and printing). -/
structure ical where
  calendar : Calendar
  events : List Event
deriving DecidableEq

/-- `__init__`: a fresh `Calendar()` and an empty event list. -/
def ical.init : ical := ⟨⟨[], []⟩, []⟩

/-- `reset`: when the calendar is not empty, `self._calendar.clear()` —
plain `dict.clear`, so only the property entries are removed; the
subcomponent list and `self._events` are untouched. -/
def ical.reset (s : ical) : ical :=
  if s.calendar.isEmpty then s
  else { s with calendar := { s.calendar with props := [] } }

/-- `createNew`: `reset`, then replace the calendar with a fresh one holding
the two metadata properties (icalendar `add` upper-cases the key). -/
def ical.createNew (s : ical) : ical :=
  let s1 := s.reset
  { s1 with
    calendar :=
      ⟨[("PRODID", "Matty cleaned calendar"), ("VERSION", "2.0")], []⟩ }

/-- `getEventCount`: `len(self._events)`. -/
def ical.getEventCount (s : ical) : Nat :=
  s.events.length

/-- Python list subscription `l[i]` with `IndexError` mapped to `none`:
`0 <= i < n` indexes from the front, `-n <= i < 0` from the back. -/
def pyListGet (l : List Event) (i : Int) : Option Event :=
  if 0 ≤ i ∧ i < (l.length : Int) then l.get? i.toNat
  else if -(l.length : Int) ≤ i ∧ i < 0 then l.get? (i + l.length).toNat
  else none

/-- `getEvent`: when the calendar is not empty, `self._events[eventID]`
with the `IndexError` handler returning None; None also when empty. -/
def ical.getEvent (s : ical) (eventID : Int) : Option Event :=
  if s.calendar.isEmpty = false then pyListGet s.events eventID
  else none

/-- `addEvent`: `createNew` first when the calendar is empty, then
`add_component(e)` and `self._events.append(e)`. -/
def ical.addEvent (s : ical) (e : Event) : ical :=
  let s1 := if s.calendar.isEmpty then s.createNew else s
  { s1 with
    calendar :=
      { s1.calendar with
        subcomponents := s1.calendar.subcomponents ++ [.vevent e] },
    events := s1.events ++ [e] }

/-- The error reported by `readFromFile` on a non-empty calendar
(`"Error - clear calendar before loading new data"`, return False). -/
inductive LoadError where
  | alreadyLoadedError
deriving DecidableEq

/-- `readFromFile`, given the already-decoded calendar
(`Calendar.from_ical` of the file bytes; file I/O itself is outside the
embedding): only an empty calendar is populated — it adopts the decoded
calendar, sets `self._events = self._calendar.walk("VEVENT")` and reports
the resulting event count; otherwise the state is unchanged and an error
is reported. -/
def ical.readFromFile (s : ical) (decoded : Calendar) :
    ical × Except LoadError Nat :=
  if s.calendar.isEmpty then
    let evs := walkVEVENT decoded
    ({ s with calendar := decoded, events := evs }, .ok evs.length)
  else (s, .error .alreadyLoadedError)

/-- `startsWithChars needle hay`: `hay` begins with `needle`. -/
def startsWithChars : List Char → List Char → Bool
  | [], _ => true
  | _ :: _, [] => false
  | a :: as, b :: bs => a == b && startsWithChars as bs

/-- Python substring containment `needle in hay` on strings. -/
def containsChars (needle : List Char) : List Char → Bool
  | [] => startsWithChars needle []
  | c :: rest => startsWithChars needle (c :: rest) || containsChars needle rest

/-- Python `s.upper()` over the character list (the program only upper-cases
ASCII summary text and search needles). -/
def upperChars (l : List Char) : List Char :=
  l.map Char.toUpper

/-- The loop body of `findEventsByDateAfter` for one event: compute
`recurring` (the `try` block around the RRULE access catches exactly
KeyError), then truncate `event["DTEND"].dt` and decide
`end >= cutoff or recurring`.
Uncaught: IndexError when the UNTIL value list is empty, TypeError when the
RRULE value supports no `in` test (or is a string containing "UNTIL", whose
subscription then fails), KeyError when DTEND is absent, AttributeError when
the DTEND value has no `.dt`. -/
def checkEvent (cutoff : Int) (event : Event) : Except PyError Bool :=
  let recurringE : Except PyError Bool :=
    match findField "RRULE" event.fields with
    | none => .ok false
    | some (.rrule x) =>
      match x.untilVal with
      | none => .ok true
      | some [] => .error .indexError
      | some (d :: _) => .ok (decide (cutoff ≤ d.toDate))
    | some (.text s) =>
      if containsChars "UNTIL".data s.data then .error .typeError
      else .ok true
    | some (.time _) => .error .typeError
  match recurringE with
  | .error err => .error err
  | .ok recurring =>
    match findField "DTEND" event.fields with
    | some (.time t) => .ok (decide (cutoff ≤ t.toDate) || recurring)
    | some _ => .error .attributeError
    | none => .error .keyError

/-- `findEventsByDateAfter` over a given event list and the cutoff date
(the method computes `cutoff = datetime.datetime.now().date() -
relativedelta(months=months)` and iterates `self._events`; the first
uncaught exception aborts the method, discarding the list built so far). -/
def findEventsByDateAfter (events : List Event) (cutoff : Int) :
    Except PyError (List Event) :=
  match events with
  | [] => .ok []
  | e :: rest =>
    match checkEvent cutoff e with
    | .error err => .error err
    | .ok keep =>
      match findEventsByDateAfter rest cutoff with
      | .error err => .error err
      | .ok tail => .ok (if keep then e :: tail else tail)

/-- The `while not found` loop of `findEventBySummary`: fetch
`self.getEvent(startInx)` (None is then subscripted — TypeError), test
`srch.upper() in thisEvent["SUMMARY"].upper()` (KeyError when SUMMARY is
absent, AttributeError when its value has no `.upper`), else advance and
stop once `startInx >= self.getEventCount()`.  The loop advances `startInx`
by one per iteration and stops no later than at `getEventCount`, so from
start index `i` it runs at most `(getEventCount - i) + 1` iterations; the
`fuel` argument carries that bound and its zero case is unreachable for the
bound passed in `findEventBySummary` below. -/
def scanForSummary (s : ical) (srchU : List Char) :
    Nat → Int → Except PyError (Option (Int × Event))
  | 0, _ => .error .typeError
  | fuel + 1, i =>
    match s.getEvent i with
    | none => .error .typeError
    | some ev =>
      match findField "SUMMARY" ev.fields with
      | none => .error .keyError
      | some (.text summ) =>
        if containsChars srchU (upperChars summ.data) then .ok (some (i, ev))
        else if (s.getEventCount : Int) ≤ i + 1 then .ok none
        else scanForSummary s srchU fuel (i + 1)
      | some _ => .error .attributeError

/-- `findEventBySummary`: `ret = (startInx, None)` before the loop (so a
fruitless scan reports the original start index); an empty calendar skips
the loop entirely. -/
def ical.findEventBySummary (s : ical) (srch : String) (startInx : Int := 0) :
    Except PyError (Int × Option Event) :=
  if s.calendar.isEmpty then .ok (startInx, none)
  else
    match
      scanForSummary s (upperChars srch.data)
        (((s.getEventCount : Int) - startInx).toNat + 1) startInx
    with
    | .error err => .error err
    | .ok none => .ok (startInx, none)
    | .ok (some (i, ev)) => .ok (i, some ev)

/-- The two characters of the vendor-extension marker. -/
def xDashChars : List Char := ['X', '-']

/-- `stripApplicationSpecificSubcomponents`: build a fresh `Event()` and,
iterating the fields in order, copy each one whose name does not contain
"X-" (Python `"X-" not in subComponent` is a substring test); dict insertion
of the unique names is an append. -/
def stripApplicationSpecificSubcomponents (event : Event) : Event :=
  ⟨event.fields.foldl
    (fun acc p => if containsChars xDashChars p.1.data then acc else acc ++ [p])
    []⟩

/-! ### Specification-side predicates (stated from the spec's words, for
comparison with the embedded code) -/

/-- The event has a DTEND field whose value carries `.dt` (a date or a
date-time). -/
def hasTimeDtend (e : Event) : Bool :=
  match findField "DTEND" e.fields with
  | some (.time _) => true
  | _ => false

/-- The recurrence part of the survival check runs without an exception:
either there is no RRULE field, or its value is a rule mapping whose UNTIL
entry, when present, is non-empty. -/
def rrulePartOk (e : Event) : Bool :=
  match findField "RRULE" e.fields with
  | none => true
  | some (.rrule x) =>
    match x.untilVal with
    | some [] => false
    | _ => true
  | some _ => false

/-- The event can be evaluated by the recency filter without an exception. -/
def wfEvent (e : Event) : Bool :=
  hasTimeDtend e && rrulePartOk e

/-- The survival predicate as the specification words it: the DTEND value
(truncated to a date) is at or after the cutoff, or there is an RRULE with
no UNTIL sub-field, or the first UNTIL value (truncated to a date) is at or
after the cutoff. -/
def claimSurvives (cutoff : Int) (e : Event) : Bool :=
  (match findField "DTEND" e.fields with
   | some (.time t) => decide (cutoff ≤ t.toDate)
   | _ => false) ||
  (match findField "RRULE" e.fields with
   | some (.rrule x) =>
     match x.untilVal with
     | none => true
     | some [] => false
     | some (d :: _) => decide (cutoff ≤ d.toDate)
   | _ => false)

/-- The first value of the UNTIL sub-field of the RRULE field, when the
event has that shape. -/
def rruleUntilFirst (e : Event) : Option DTime :=
  match findField "RRULE" e.fields with
  | some (.rrule x) =>
    match x.untilVal with
    | some (d :: _) => some d
    | _ => none
  | _ => none

/-- The DTEND value of the event, when present with a date or date-time. -/
def dtendTime (e : Event) : Option DTime :=
  match findField "DTEND" e.fields with
  | some (.time t) => some t
  | _ => none

/-- Stripping as the specification words it: keep exactly the fields whose
name does not BEGIN with the vendor-extension prefix "X-". -/
def claimStrip (e : Event) : Event :=
  ⟨e.fields.filter fun p => !startsWithChars xDashChars p.1.data⟩

/-! ### Concrete fixtures used by witnesses and counterexamples -/

/-- Single event, DTEND well before the cutoff used below. -/
def evA : Event := ⟨[("DTEND", .time (.date 100))]⟩

/-- Single event, DTEND after the cutoff used below. -/
def evB : Event := ⟨[("DTEND", .time (.date 200))]⟩

/-- Recurring event with no UNTIL sub-field, old DTEND. -/
def evC : Event := ⟨[("DTEND", .time (.date 100)), ("RRULE", .rrule ⟨none⟩)]⟩

/-- Recurring event whose UNTIL is after the cutoff used below, old DTEND. -/
def evD : Event := ⟨[("DTEND", .time (.date 100)), ("RRULE", .rrule ⟨some [.date 300]⟩)]⟩

/-- Recurring event whose UNTIL is before the cutoff used below, but whose
DTEND (a date-time) truncates to a date after it. -/
def evE : Event := ⟨[("DTEND", .time (.dateTime 200 5)), ("RRULE", .rrule ⟨some [.date 10]⟩)]⟩

/-- An event with no DTEND field at all. -/
def evNoEnd : Event := ⟨[("SUMMARY", .text "x")]⟩

/-- An event whose field names exercise the three stripping cases: a name
containing "X-" without beginning with it, a plain standard name, and a
vendor-extension name. -/
def evFax : Event :=
  ⟨[("FAX-HOME", .text "call"), ("SUMMARY", .text "s"),
    ("X-APPLE-TRAVEL-TIME", .text "t")]⟩

/-- A minimal event for container-level fixtures. -/
def ev9 : Event := ⟨[("SUMMARY", .text "x")]⟩

/-- A container holding exactly one event, built through `addEvent`. -/
def s9 : ical := ical.init.addEvent ev9

/-- The three events of the summary-lookup scenario. -/
def evDaily : Event :=
  ⟨[("SUMMARY", .text "Daily Standup"), ("DTEND", .time (.date 10))]⟩

def evOne : Event :=
  ⟨[("SUMMARY", .text "1:1"), ("DTEND", .time (.date 10))]⟩

def evWeekly : Event :=
  ⟨[("SUMMARY", .text "Weekly Standup"), ("DTEND", .time (.date 10))]⟩

/-- The scenario container with the three summary events in order. -/
def standupCal : ical :=
  ((ical.init.addEvent evDaily).addEvent evOne).addEvent evWeekly

/-- A decoded calendar as `Calendar.from_ical` would produce it: metadata
properties plus subcomponents, of which only the VEVENTs are collected. -/
def decodedCal : Calendar :=
  ⟨[("PRODID", "some phone"), ("VERSION", "2.0")],
   [.other "VTIMEZONE", .vevent evB, .vevent evC]⟩

/-- A raw state whose calendar is empty while the event list is not (no
operation sequence of the program reaches it; it separates the two gates
that `getEvent` could have used). -/
def ghostState : ical := ⟨⟨[], []⟩, [ev9]⟩

/-! ### Helper lemmas -/

/-- On an event the filter can evaluate without an exception, the loop body
decides exactly the specification's survival predicate. -/
theorem checkEvent_eq_claim (cutoff : Int) (e : Event) (h : wfEvent e = true) :
    checkEvent cutoff e = .ok (claimSurvives cutoff e) := by
  unfold wfEvent hasTimeDtend rrulePartOk at h
  cases hD : findField "DTEND" e.fields with
  | none => simp [hD] at h
  | some w =>
    cases w with
    | text s => simp [hD] at h
    | rrule r => simp [hD] at h
    | time t =>
      cases hR : findField "RRULE" e.fields with
      | none => simp [checkEvent, claimSurvives, hD, hR]
      | some v =>
        cases v with
        | time u => simp [hD, hR] at h
        | text s => simp [hD, hR] at h
        | rrule x =>
          cases hU : x.untilVal with
          | none => simp [checkEvent, claimSurvives, hD, hR, hU]
          | some l =>
            cases l with
            | nil => simp [hD, hR, hU] at h
            | cons d ds => simp [checkEvent, claimSurvives, hD, hR, hU]

/-- On an event whose recurrence part raises nothing but whose DTEND field
is absent, the loop body raises KeyError. -/
theorem checkEvent_missing_dtend (cutoff : Int) (e : Event)
    (hD : findField "DTEND" e.fields = none) (hR : rrulePartOk e = true) :
    checkEvent cutoff e = .error .keyError := by
  unfold rrulePartOk at hR
  cases hRf : findField "RRULE" e.fields with
  | none => simp [checkEvent, hD, hRf]
  | some v =>
    cases v with
    | time u => simp [hRf] at hR
    | text s => simp [hRf] at hR
    | rrule x =>
      cases hU : x.untilVal with
      | none => simp [checkEvent, hD, hRf, hU]
      | some l =>
        cases l with
        | nil => simp [hRf, hU] at hR
        | cons d ds => simp [checkEvent, hD, hRf, hU]

/-- The copying loop of the stripper is a filter on the field list. -/
theorem strip_foldl_eq (l acc : List (String × FieldValue)) :
    l.foldl
        (fun acc p =>
          if containsChars xDashChars p.1.data then acc else acc ++ [p]) acc
      = acc ++ l.filter (fun p => !containsChars xDashChars p.1.data) := by
  induction l generalizing acc with
  | nil => simp
  | cons p ps ih =>
    by_cases hp : containsChars xDashChars p.1.data
    · simp [List.filter_cons, hp, ih]
    · simp [List.filter_cons, hp, ih]

/-- The stripper keeps exactly the fields whose name does not contain the
character pair "X-", in order, with their values. -/
theorem strip_eq_filter (e : Event) :
    stripApplicationSpecificSubcomponents e
      = ⟨e.fields.filter fun p => !containsChars xDashChars p.1.data⟩ := by
  unfold stripApplicationSpecificSubcomponents
  rw [strip_foldl_eq]
  rfl

/-! ### Claim theorems -/

/-- Claim C1: given the cutoff date, `findEventsByDateAfter` keeps an event
record (every one carrying a DTEND date or date-time, and a first UNTIL
value where UNTIL is present) if and only if its DTEND truncated to a date
is at or after the cutoff, or it has an RRULE with no UNTIL sub-field, or
the first UNTIL value truncated to a date is at or after the cutoff; the
output is the subsequence of qualifying records in original order. -/
theorem findEventsByDateAfter_keeps_qualifying (events : List Event)
    (cutoff : Int) (h : ∀ e ∈ events, wfEvent e = true) :
    findEventsByDateAfter events cutoff
      = .ok (events.filter (claimSurvives cutoff)) := by
  induction events with
  | nil => rfl
  | cons e rest ih =>
    have he : wfEvent e = true := h e (List.mem_cons_self e rest)
    have hr : ∀ x ∈ rest, wfEvent x = true := fun x hx =>
      h x (List.mem_cons_of_mem _ hx)
    rw [findEventsByDateAfter, checkEvent_eq_claim cutoff e he, ih hr]
    simp [List.filter_cons]

/-- Claim C1, witness: a concrete run over the five filter fixtures at
cutoff 150 — kept are the recent single event, the open-ended recurrence,
the recurrence ending after the cutoff, and the old recurrence with a
recent DTEND. -/
theorem findEventsByDateAfter_keeps_qualifying_witness :
    (∀ e ∈ [evA, evB, evC, evD, evE], wfEvent e = true) ∧
    findEventsByDateAfter [evA, evB, evC, evD, evE] 150
      = .ok (List.filter (claimSurvives 150) [evA, evB, evC, evD, evE]) :=
  ⟨by decide, findEventsByDateAfter_keeps_qualifying [evA, evB, evC, evD, evE]
      150 (by decide)⟩

/-- Claim C2, counterexample: the event `evE` has an UNTIL first value (day
10) strictly before the cutoff 150, yet it survives the filter, because its
DTEND truncates to day 200 — survival is not independent of DTEND. -/
theorem until_before_cutoff_still_survives :
    rruleUntilFirst evE = some (.date 10) ∧
    (DTime.date 10).toDate < 150 ∧
    findEventsByDateAfter [evE] 150 = .ok [evE] :=
  ⟨rfl, by decide, rfl⟩

/-- Claim C2, amended: an event whose RRULE carries an UNTIL first value `d`
and whose DTEND value is `t` survives the recency filter if and only if `d`
(truncated) is at or after the cutoff OR `t` (truncated) is at or after the
cutoff; only the "if" direction is independent of DTEND. -/
theorem survival_with_until_iff_until_or_dtend (cutoff : Int) (e : Event)
    (t d : DTime) (hD : dtendTime e = some t)
    (hU : rruleUntilFirst e = some d) :
    findEventsByDateAfter [e] cutoff
      = .ok (if cutoff ≤ d.toDate ∨ cutoff ≤ t.toDate then [e] else []) := by
  cases hDf : findField "DTEND" e.fields with
  | none => simp [dtendTime, hDf] at hD
  | some w =>
    cases w with
    | text s => simp [dtendTime, hDf] at hD
    | rrule r => simp [dtendTime, hDf] at hD
    | time t0 =>
      simp [dtendTime, hDf] at hD
      subst hD
      cases hRf : findField "RRULE" e.fields with
      | none => simp [rruleUntilFirst, hRf] at hU
      | some v =>
        cases v with
        | time u => simp [rruleUntilFirst, hRf] at hU
        | text s => simp [rruleUntilFirst, hRf] at hU
        | rrule x =>
          cases hUf : x.untilVal with
          | none => simp [rruleUntilFirst, hRf, hUf] at hU
          | some l =>
            cases l with
            | nil => simp [rruleUntilFirst, hRf, hUf] at hU
            | cons d0 ds =>
              simp [rruleUntilFirst, hRf, hUf] at hU
              subst hU
              rw [findEventsByDateAfter, findEventsByDateAfter]
              simp only [checkEvent, hDf, hRf, hUf]
              by_cases h1 : cutoff ≤ d0.toDate <;>
                by_cases h2 : cutoff ≤ t0.toDate <;>
                simp [h1, h2]

/-- Claim C2, witness: the fixture `evD` (DTEND day 100, UNTIL day 300) at
cutoff 150 survives through its UNTIL value. -/
theorem survival_with_until_iff_until_or_dtend_witness :
    findEventsByDateAfter [evD] 150
      = .ok (if (150 : Int) ≤ (DTime.date 300).toDate
              ∨ (150 : Int) ≤ (DTime.date 100).toDate then [evD] else []) :=
  survival_with_until_iff_until_or_dtend 150 evD (.date 100) (.date 300)
    rfl rfl

/-- Claim C3, counterexample: with a first record lacking DTEND and a second
record that qualifies, the whole filter run aborts with the KeyError — the
qualifying record is never produced, so the per-record error does abort the
batch. -/
theorem missing_dtend_aborts_cex :
    findEventsByDateAfter [evNoEnd, evB] 150 = .error .keyError ∧
    claimSurvives 150 evB = true :=
  ⟨rfl, by decide⟩

/-- Claim C3, amended: a record lacking DTEND raises an uncaught KeyError
that aborts the entire filtering run — whatever records follow the
defective one are never evaluated and no output list is produced (the
records before it are evaluated but their results are discarded with the
exception). -/
theorem missing_dtend_aborts_whole_batch (cutoff : Int) (pre : List Event)
    (e : Event) (rest : List Event) (hpre : ∀ x ∈ pre, wfEvent x = true)
    (hD : findField "DTEND" e.fields = none) (hR : rrulePartOk e = true) :
    findEventsByDateAfter (pre ++ e :: rest) cutoff = .error .keyError := by
  induction pre with
  | nil =>
    rw [List.nil_append, findEventsByDateAfter,
      checkEvent_missing_dtend cutoff e hD hR]
  | cons p ps ih =>
    have hp : wfEvent p = true := hpre p (List.mem_cons_self p ps)
    have hps : ∀ x ∈ ps, wfEvent x = true := fun x hx =>
      hpre x (List.mem_cons_of_mem _ hx)
    rw [List.cons_append, findEventsByDateAfter,
      checkEvent_eq_claim cutoff p hp, ih hps]

/-- Claim C3, witness: the concrete two-record batch with a well-formed
record after the defective one aborts with the KeyError. -/
theorem missing_dtend_aborts_whole_batch_witness :
    findEventsByDateAfter ([] ++ evNoEnd :: [evB]) 150 = .error .keyError :=
  missing_dtend_aborts_whole_batch 150 [] evNoEnd [evB] (by decide) rfl
    (by decide)

/-- Claim C4, counterexample: the field name "FAX-HOME" does not begin with
"X-", so the claim keeps it, but the code's substring test removes it — the
stripped event differs from the claim's prefix-based stripping. -/
theorem strip_differs_from_prefix_strip :
    stripApplicationSpecificSubcomponents evFax ≠ claimStrip evFax ∧
    startsWithChars xDashChars "FAX-HOME".data = false ∧
    stripApplicationSpecificSubcomponents evFax = ⟨[("SUMMARY", .text "s")]⟩ :=
  ⟨by decide, by decide, rfl⟩

/-- Claim C4, amended: `stripApplicationSpecificSubcomponents(e)` is a new
record containing exactly those fields of `e` whose name does not CONTAIN
the two-character sequence "X-" anywhere (every such field is preserved in
order with its value copied verbatim, every field whose name contains "X-"
is removed — in particular every "X-"-prefixed field), it is a pure
function of `e`, and it always succeeds, possibly yielding a record with
zero fields. -/
theorem strip_keeps_exactly_non_xdash_fields (e : Event) :
    stripApplicationSpecificSubcomponents e
      = ⟨e.fields.filter fun p => !containsChars xDashChars p.1.data⟩ :=
  strip_eq_filter e

/-- Claim C5: over the three events titled "Daily Standup", "1:1" and
"Weekly Standup", the case-insensitive summary search for "standup" from
index 0 yields (0, Daily Standup) and from index 1 yields (2, Weekly
Standup) as specified, but from index 3 — at the end of the sequence — the
claimed NotFound outcome is not produced: `getEvent` returns None and the
loop subscripts it, raising an uncaught TypeError. -/
theorem findEventBySummary_scenario :
    standupCal.findEventBySummary "standup" 0 = .ok (0, some evDaily) ∧
    standupCal.findEventBySummary "standup" 1 = .ok (2, some evWeekly) ∧
    standupCal.findEventBySummary "standup" 3 = .error .typeError ∧
    standupCal.findEventBySummary "zzz" 0 = .ok (0, none) :=
  ⟨rfl, rfl, rfl, rfl⟩

/-- Claim C6: stripping is idempotent — stripping an already-stripped event
changes nothing. -/
theorem strip_idempotent (e : Event) :
    stripApplicationSpecificSubcomponents
        (stripApplicationSpecificSubcomponents e)
      = stripApplicationSpecificSubcomponents e := by
  rw [strip_eq_filter e, strip_eq_filter]
  simp [List.filter_filter]

/-- Claim C7: after adding one event to a fresh container, `reset()` does
not restore the empty state — `Calendar.clear()` empties only the metadata
property dict, so the internal event list still holds the record,
`getEventCount()` still reports 1, and the calendar still carries the
VEVENT subcomponent (the second reset changes nothing, but the claimed
post-state `eventCount() = 0` is not reached). -/
theorem reset_leaves_events_behind :
    (s9.reset).getEventCount = 1 ∧
    (s9.reset).calendar.isEmpty = false ∧
    (s9.reset).events = [ev9] ∧
    (s9.reset).calendar.props = [] ∧
    (s9.reset).reset = s9.reset :=
  ⟨rfl, rfl, rfl, rfl, rfl⟩

/-- Claim C8: loading decoded calendar data is permitted only while the
calendar is empty — a non-empty container refuses the load with the
already-loaded error and is left completely unchanged, while an empty one
adopts the decoded metadata and the ordered VEVENT sequence and reports the
resulting event count. -/
theorem readFromFile_only_into_empty (s : ical) (decoded : Calendar) :
    (s.calendar.isEmpty = false →
      s.readFromFile decoded = (s, .error .alreadyLoadedError)) ∧
    (s.calendar.isEmpty = true →
      s.readFromFile decoded
        = ({ s with calendar := decoded, events := walkVEVENT decoded },
            .ok (walkVEVENT decoded).length)) := by
  constructor <;> intro h <;> simp [ical.readFromFile, h]

/-- Claim C8, witness: the one-event container refuses the decoded calendar
unchanged, and the fresh container adopts its two VEVENTs. -/
theorem readFromFile_only_into_empty_witness :
    s9.readFromFile decodedCal = (s9, .error .alreadyLoadedError) ∧
    ical.init.readFromFile decodedCal
      = (⟨decodedCal, walkVEVENT decodedCal⟩,
          .ok (walkVEVENT decodedCal).length) :=
  ⟨(readFromFile_only_into_empty s9 decodedCal).1 (by decide),
   (readFromFile_only_into_empty ical.init decodedCal).2 (by decide)⟩

/-- Claim C9, counterexample: on a container holding one event, `getEvent`
at index -1 returns that event — Python list subscription indexes from the
back for negative indices, so the claimed NotFound outcome for every
negative index is false. -/
theorem getEvent_negative_index_returns_event :
    s9.getEvent (-1) = some ev9 ∧ s9.getEventCount = 1 :=
  ⟨rfl, rfl⟩

/-- Claim C9, amended: on a container whose calendar is non-empty and which
holds n events, `getEvent(i)` returns the event at position i when
0 <= i < n, returns the event at position n + i when -n <= i < 0 (Python
negative indexing), and signals NotFound (None) only when i < -n or i >= n;
it never raises a fatal error. -/
theorem getEvent_python_index_semantics (s : ical) (i : Int)
    (h : s.calendar.isEmpty = false) :
    ((0 ≤ i ∧ i < (s.events.length : Int)) →
      s.getEvent i = s.events.get? i.toNat) ∧
    ((-(s.events.length : Int) ≤ i ∧ i < 0) →
      s.getEvent i = s.events.get? (i + s.events.length).toNat) ∧
    ((i < -(s.events.length : Int) ∨ (s.events.length : Int) ≤ i) →
      s.getEvent i = none) := by
  have hg : s.getEvent i = pyListGet s.events i := by
    simp [ical.getEvent, h]
  refine ⟨?_, ?_, ?_⟩ <;> intro hc <;> rw [hg] <;> unfold pyListGet
  · rw [if_pos hc]
  · rw [if_neg (by omega), if_pos hc]
  · rw [if_neg (by omega), if_neg (by omega)]

/-- Claim C9, amended, witness: on the one-event container, index -1 maps
to position 0 and index 5 is NotFound. -/
theorem getEvent_python_index_semantics_witness :
    s9.getEvent (-1) = s9.events.get? ((-1 : Int) + s9.events.length).toNat ∧
    s9.getEvent 5 = none :=
  ⟨(getEvent_python_index_semantics s9 (-1) rfl).2.1 (by decide),
   (getEvent_python_index_semantics s9 5 rfl).2.2 (by decide)⟩

/-- Claim C10: whenever the underlying calendar is empty, `getEvent`
returns None for every index, whatever the internal event list holds —
retrieval is gated on the calendar's emptiness, not on the list that
`getEventCount` measures. -/
theorem getEvent_gated_on_calendar_empty (s : ical) (i : Int)
    (h : s.calendar.isEmpty = true) :
    s.getEvent i = none := by
  simp [ical.getEvent, h]

/-- Claim C10, witness: a state with an empty calendar but a one-element
event list — `getEvent 0` is None although `getEventCount` reports 1. -/
theorem getEvent_gated_on_calendar_empty_witness :
    ghostState.getEvent 0 = none ∧ ghostState.getEventCount = 1 :=
  ⟨getEvent_gated_on_calendar_empty ghostState 0 rfl, rfl⟩

end Trimics
